import Mathlib

/-!
Shallow embedding of the procedural L-system tree generator
(seeded random source, grammar engine, 3D turtle interpreter and
geometry builders), translated from the TypeScript source.

Conventions of the embedding:
* JavaScript floating-point numbers are modelled exactly: as rationals in
  the random source / grammar engine (where all arithmetic is field
  arithmetic) and as reals in the geometry and turtle layers (which use
  trigonometric functions and square roots).
* Unsigned 32-bit arithmetic of the PRNG is modelled on ℕ with explicit
  reduction modulo 2^32.
* The mutable `RandomGenerator` closure is modelled as a stream
  `f : ℕ → ℚ` of draws together with a cursor `k : ℕ`; each call of
  `random()` reads `f k` and advances the cursor to `k + 1`.
-/

namespace LTree

/-! ### Seeded random source (src/lsystem/random.ts) -/

/-- Reduction modulo 2^32: the JavaScript `| 0` / `>>> 0` wraparound,
viewed on unsigned residues. -/
def wrap32 (n : ℕ) : ℕ := n % 4294967296

/-- JavaScript `Math.imul`: the low 32 bits of the product. -/
def imul32 (a b : ℕ) : ℕ := wrap32 (a * b)

/-- 32-bit rotate left: `(h << s) | (h >>> (32 - s))` on a 32-bit word. -/
def rotl32 (h s : ℕ) : ℕ := wrap32 (h <<< s) ||| (h >>> (32 - s))

/-- One output step of the xmur3 hash: the body of the closure returned by
`xmur3` (the returned value is also the new internal state `h`). -/
def xmur3Mix (h : ℕ) : ℕ :=
  let h1 := imul32 (h ^^^ (h >>> 16)) 2246822507
  let h2 := imul32 (h1 ^^^ (h1 >>> 13)) 3266489909
  h2 ^^^ (h2 >>> 16)

/-- The xmur3 state after folding the seed string: `h` is initialized with a
prime XORed with the string length, then each character is XORed and
multiplied in, followed by a 13-bit rotation.  Characters are taken as
UTF-16 code units (`charCodeAt`), which agrees with `Char.toNat` on the
basic plane. -/
def xmur3Init (str : String) : ℕ :=
  str.toList.foldl
    (fun h c => rotl32 (imul32 (h ^^^ wrap32 c.toNat) 3432918353) 13)
    (1779033703 ^^^ wrap32 str.length)

/-- Internal state of the sfc32 generator. -/
structure Sfc32State where
  a : ℕ
  b : ℕ
  c : ℕ
  d : ℕ
deriving DecidableEq

/-- One sfc32 step, producing the raw unsigned 32-bit output word and the
next state (a direct transcription of the closure body in `sfc32`). -/
def sfc32Step (s : Sfc32State) : ℕ × Sfc32State :=
  let t1 := wrap32 (s.a + s.b)
  let a' := s.b ^^^ (s.b >>> 9)
  let b' := wrap32 (s.c + wrap32 (s.c <<< 3))
  let c1 := rotl32 s.c 21
  let d' := wrap32 (s.d + 1)
  let t2 := wrap32 (t1 + d')
  let c' := wrap32 (c1 + t2)
  (t2, ⟨a', b', c', d'⟩)

/-- Initial sfc32 state built by `createRandom`: four successive xmur3
hash values of the seed string. -/
def createRandomInit (seed : String) : Sfc32State :=
  let h0 := xmur3Init seed
  let h1 := xmur3Mix h0
  let h2 := xmur3Mix h1
  let h3 := xmur3Mix h2
  let h4 := xmur3Mix h3
  ⟨h1, h2, h3, h4⟩

/-- sfc32 state after `n` draws. -/
def sfc32After (s : Sfc32State) : ℕ → Sfc32State
  | 0 => s
  | n + 1 => (sfc32Step (sfc32After s n)).2

/-- The deterministic stream of `random()` values of the generator created
by `createRandom({seed})`: the n-th raw word divided by 2^32. -/
def createRandomStream (seed : String) : ℕ → ℚ :=
  fun n => ((sfc32Step (sfc32After (createRandomInit seed) n)).1 : ℚ) / 4294967296

/-- `randomInt({min, max})` evaluated at a single draw `r` of the underlying
generator: `Math.floor(min + r * (max - min + 1))`. -/
def randomInt (min max r : ℚ) : ℚ := ((⌊min + r * (max - min + 1)⌋ : ℤ) : ℚ)

/-! ### Symbols and L-system data model (src/lsystem/symbols.ts)

`SymbolParams` is parametrized by the scalar type so the grammar engine
(exact rationals) and the turtle interpreter (reals) can share it. -/

/-- Optional numeric parameters attached to a symbol. -/
structure SymbolParams (α : Type) where
  length : Option α := none
  radius : Option α := none
  angle : Option α := none
  size : Option α := none
  age : Option α := none
deriving DecidableEq

/-- A single parameterized symbol (`Symbol` in the source). -/
structure Symb (α : Type) where
  symbol : Char
  params : SymbolParams α
deriving DecidableEq

/-- L-system generation configuration. -/
structure LSystemConfig where
  baseLength : ℚ
  baseRadius : ℚ
  lengthFalloff : ℚ
  radiusFalloff : ℚ
  branchAngle : ℚ
  variability : ℚ
deriving DecidableEq

/-- A rule production: a literal string or a generator function
(the tagged variant of the `string | ProduceFunction` union).  A generator
receives the matched symbol, the config, the current depth and the random
stream with its cursor, and returns the spliced symbols and next cursor. -/
inductive Produce where
  | literal (text : String)
  | generator (fn : Symb ℚ → LSystemConfig → ℤ → (ℕ → ℚ) → ℕ → List (Symb ℚ) × ℕ)

/-- A production rule (`match` is a Lean keyword, hence `matchChar`). -/
structure Rule where
  matchChar : Char
  odds : ℚ
  produce : Produce

/-- Complete L-system definition (`axiom` is reserved, hence `axiomText`). -/
structure LSystem where
  axiomText : String
  rules : List Rule
  config : LSystemConfig

/-! ### Grammar engine (src/lsystem/engine.ts) -/

/-- The accumulation scan inside `selectRule`: walk the rules in order,
adding each rule's odds to the accumulator, and return the first rule for
which the drawn value is below the accumulated odds. -/
def scanRules : List Rule → ℚ → ℚ → Option Rule
  | [], _, _ => none
  | rule :: rest, acc, r =>
    let acc' := acc + rule.odds
    if r < acc' then some rule else scanRules rest acc' r

/-- `selectRule({rules, rng})`: a single rule is returned without consuming
randomness; otherwise one draw is consumed, scaled by the total odds, and
the accumulation scan picks the rule (falling back to the last rule).
`none` can only arise for an empty candidate list, where the JavaScript
version returns `undefined`. -/
def selectRule (rules : List Rule) (f : ℕ → ℚ) (k : ℕ) : Option Rule × ℕ :=
  if rules.length = 1 then (rules.head?, k)
  else
    let totalOdds := rules.foldl (fun sum rule => sum + rule.odds) 0
    let randomValue := f k * totalOdds
    match scanRules rules 0 randomValue with
    | some rule => (some rule, k + 1)
    | none => (rules.getLast?, k + 1)

/-- `getVariabilityFactor` helper of `createSymbol`: `1` (no draw) when the
variability is zero, otherwise `1 + variability * (random() - 0.5) * 2`
consuming one draw. -/
def getVariabilityFactor (config : LSystemConfig) (f : ℕ → ℚ) (k : ℕ) : ℚ × ℕ :=
  if config.variability = 0 then (1, k)
  else (1 + config.variability * (f k - 0.5) * 2, k + 1)

/-- The rotation symbol characters checked by `createSymbol`. -/
def rotationSymbols : List Char := ['+', '-', '^', '&', '/', '\\']

/-- `createSymbol`: attach depth- and draw-dependent parameters to a
character (the `parentParams` argument is accepted and ignored, as in the
source). -/
def createSymbol (char : Char) (_parentParams : SymbolParams ℚ) (f : ℕ → ℚ)
    (config : LSystemConfig) (depth : ℤ) (k : ℕ) : Symb ℚ × ℕ :=
  if char = 'F' then
    let vf := getVariabilityFactor config f k
    let baseLengthWithFalloff := config.baseLength * config.lengthFalloff ^ depth
    (⟨char, { length := some (baseLengthWithFalloff * vf.1) }⟩, vf.2)
  else if char ∈ rotationSymbols then
    let vf := getVariabilityFactor config f k
    (⟨char, { angle := some (config.branchAngle * vf.1) }⟩, vf.2)
  else if char = 'L' then
    (⟨char, { size := some 1 }⟩, k)
  else
    (⟨char, {}⟩, k)

/-- Character-by-character loop of `parseProduction`. -/
def parseProductionGo (f : ℕ → ℚ) (config : LSystemConfig) (depth : ℤ) :
    List Char → ℕ → List (Symb ℚ) × ℕ
  | [], k => ([], k)
  | c :: cs, k =>
    let sk := createSymbol c {} f config depth k
    let rest := parseProductionGo f config depth cs sk.2
    (sk.1 :: rest.1, rest.2)

/-- `parseProduction`: parse a production string into parameterized symbols
at the given depth, threading the random cursor. -/
def parseProduction (production : String) (f : ℕ → ℚ) (config : LSystemConfig)
    (depth : ℤ) (k : ℕ) : List (Symb ℚ) × ℕ :=
  parseProductionGo f config depth production.toList k

/-- Symbol-by-symbol loop of `applyRules`, tracking bracket depth. -/
def applyRulesGo (rules : List Rule) (f : ℕ → ℚ) (config : LSystemConfig) :
    List (Symb ℚ) → ℤ → ℕ → List (Symb ℚ) × ℕ
  | [], _, k => ([], k)
  | sym :: rest, depth, k =>
    if sym.symbol = '[' then
      let r := applyRulesGo rules f config rest (depth + 1) k
      (sym :: r.1, r.2)
    else if sym.symbol = ']' then
      let r := applyRulesGo rules f config rest (depth - 1) k
      (sym :: r.1, r.2)
    else
      let matchingRules := rules.filter (fun rule => rule.matchChar = sym.symbol)
      if matchingRules.isEmpty then
        let r := applyRulesGo rules f config rest depth k
        (sym :: r.1, r.2)
      else
        let sel := selectRule matchingRules f k
        match sel.1 with
        | some rule =>
          match rule.produce with
          | Produce.literal text =>
            let ns := parseProduction text f config depth sel.2
            let r := applyRulesGo rules f config rest depth ns.2
            (ns.1 ++ r.1, r.2)
          | Produce.generator fn =>
            let ns := fn sym config depth f sel.2
            let r := applyRulesGo rules f config rest depth ns.2
            (ns.1 ++ r.1, r.2)
        | none =>
          -- unreachable: `selectRule` on a nonempty list always yields a rule
          let r := applyRulesGo rules f config rest depth k
          (sym :: r.1, r.2)

/-- `applyRules`: one rewriting pass over a sentence, starting at depth 0. -/
def applyRules (sentence : List (Symb ℚ)) (rules : List Rule) (f : ℕ → ℚ)
    (config : LSystemConfig) (k : ℕ) : List (Symb ℚ) × ℕ :=
  applyRulesGo rules f config sentence 0 k

/-- Iteration loop of `generateSentence`. -/
def generateSentenceGo (rules : List Rule) (f : ℕ → ℚ) (config : LSystemConfig) :
    ℕ → List (Symb ℚ) × ℕ → List (Symb ℚ) × ℕ
  | 0, sk => sk
  | n + 1, sk => generateSentenceGo rules f config n (applyRules sk.1 rules f config sk.2)

/-- `generateSentence`: build one fresh random stream from the seed, parse
the axiom at depth 0, and apply the rewriting pass `iterations` times. -/
def generateSentence (lsystem : LSystem) (iterations : ℕ) (seed : String) :
    List (Symb ℚ) :=
  let f := createRandomStream seed
  let init := parseProduction lsystem.axiomText f lsystem.config 0 0
  (generateSentenceGo lsystem.rules f lsystem.config iterations init).1

/-! ### Vector math utilities (src/utils/math.ts) -/

/-- 3D vector over ℝ. -/
structure Vec3 where
  x : ℝ
  y : ℝ
  z : ℝ

def addVec3 (a b : Vec3) : Vec3 := ⟨a.x + b.x, a.y + b.y, a.z + b.z⟩

def subVec3 (a b : Vec3) : Vec3 := ⟨a.x - b.x, a.y - b.y, a.z - b.z⟩

def scaleVec3 (v : Vec3) (s : ℝ) : Vec3 := ⟨v.x * s, v.y * s, v.z * s⟩

noncomputable def lengthVec3 (v : Vec3) : ℝ :=
  Real.sqrt (v.x * v.x + v.y * v.y + v.z * v.z)

/-- `normalizeVec3`: unit-length rescaling, returning the zero vector for a
zero-length input (the division-by-zero guard of the source). -/
noncomputable def normalizeVec3 (v : Vec3) : Vec3 :=
  let len := lengthVec3 v
  if len = 0 then ⟨0, 0, 0⟩
  else ⟨v.x / len, v.y / len, v.z / len⟩

def crossVec3 (a b : Vec3) : Vec3 :=
  ⟨a.y * b.z - a.z * b.y, a.z * b.x - a.x * b.z, a.x * b.y - a.y * b.x⟩

noncomputable def distanceVec3 (a b : Vec3) : ℝ := lengthVec3 (subVec3 b a)

/-! ### Quaternion math utilities (src/utils/quaternion.ts) -/

/-- Quaternion with vector part `x, y, z` and scalar part `w`. -/
structure Quat where
  x : ℝ
  y : ℝ
  z : ℝ
  w : ℝ

def identityQuat : Quat := ⟨0, 0, 0, 1⟩

def multiplyQuat (a b : Quat) : Quat :=
  ⟨a.w * b.x + a.x * b.w + a.y * b.z - a.z * b.y,
   a.w * b.y - a.x * b.z + a.y * b.w + a.z * b.x,
   a.w * b.z + a.x * b.y - a.y * b.x + a.z * b.w,
   a.w * b.w - a.x * b.x - a.y * b.y - a.z * b.z⟩

noncomputable def quatFromAxisAngle (axis : Vec3) (angle : ℝ) : Quat :=
  let halfAngle := angle / 2
  let sinHalfAngle := Real.sin halfAngle
  let cosHalfAngle := Real.cos halfAngle
  ⟨axis.x * sinHalfAngle, axis.y * sinHalfAngle, axis.z * sinHalfAngle, cosHalfAngle⟩

/-- `rotateVec3ByQuat`: `v' = v + 2*w*(qv × v) + 2*(qv × (qv × v))`. -/
def rotateVec3ByQuat (v : Vec3) (q : Quat) : Vec3 :=
  let qv : Vec3 := ⟨q.x, q.y, q.z⟩
  let cross1 := crossVec3 qv v
  let cross2 := crossVec3 qv cross1
  let term1 := scaleVec3 cross1 (2 * q.w)
  let term2 := scaleVec3 cross2 2
  addVec3 (addVec3 v term1) term2

/-! ### Skeleton data model (src/tree/skeleton.ts) -/

structure SkeletonNode where
  id : ℕ
  position : Vec3
  orientation : Quat
  radius : ℝ
  parentId : Option ℕ
  depth : ℕ
  isTerminal : Bool
  isBranchPoint : Bool

structure SkeletonSegment where
  startNodeId : ℕ
  endNodeId : ℕ
  startRadius : ℝ
  endRadius : ℝ
  length : ℝ

structure LeafPoint where
  position : Vec3
  orientation : Quat
  size : ℝ

structure Skeleton where
  nodes : List SkeletonNode
  segments : List SkeletonSegment
  leaves : List LeafPoint

structure TurtleConfig where
  baseRadius : ℝ
  radiusFalloff : ℝ
  upVector : Vec3
  forwardVector : Vec3

/-- Raw geometry buffers; the flat `Float32Array`/`Uint32Array` buffers are
modelled as flat lists. -/
structure GeometryData where
  positions : List ℝ
  normals : List ℝ
  uvs : List ℝ
  indices : List ℕ

structure BranchGeometryConfig where
  radialSegments : ℕ
  textureRepeatY : ℝ

structure LeafShapeConfig where
  width : ℝ
  length : ℝ
  curvature : ℝ
  segments : ℕ

structure Color where
  r : ℝ
  g : ℝ
  b : ℝ

structure LeafInstanceConfig where
  baseColor : Color
  colorVariation : ℝ
  sizeVariation : ℝ
  rotationScatter : ℝ
  seed : String

structure LeafInstanceData where
  matrices : List ℝ
  colors : List ℝ
  count : ℕ

/-! ### UV mapping utilities (src/tree/uvMapping.ts) -/

structure UV where
  u : ℝ
  v : ℝ

structure SegmentInfo where
  length : ℝ

noncomputable def calculateBranchUV (ringIndex vertexIndex totalRings radialSegments : ℕ)
    (segmentLength textureScale vOffset : ℝ) : UV :=
  let u : ℝ := (vertexIndex : ℝ) / (radialSegments : ℝ)
  let ringProgress : ℝ :=
    if 1 < totalRings then (ringIndex : ℝ) / ((totalRings : ℝ) - 1) else 0
  ⟨u, vOffset + ringProgress * segmentLength * textureScale⟩

/-- `calculateVOffset`: sum of `length * textureScale` over the segments
before `segmentIndex` (the source loop reads `segments[i]` for
`i < segmentIndex`; callers always pass `segmentIndex ≤ segments.length`). -/
noncomputable def calculateVOffset (segmentIndex : ℕ) (segments : List SegmentInfo)
    (textureScale : ℝ) : ℝ :=
  if segmentIndex = 0 then 0
  else ((segments.take segmentIndex).map (fun s => s.length * textureScale)).sum

/-! ### Branch geometry builder (src/tree/branchGeometry.ts) -/

/-- Local (pre-rotation) position of ring vertex `i`: angle `i*2π/segments`
on the XZ circle of the given radius. -/
noncomputable def ringLocalPos (radius : ℝ) (segments : ℕ) (i : ℕ) : Vec3 :=
  let angle : ℝ := ((i : ℝ) * 2 * Real.pi) / (segments : ℝ)
  ⟨Real.cos angle * radius, 0, Real.sin angle * radius⟩

/-- World position of ring vertex `i`: rotated local position plus center. -/
noncomputable def ringVertexPos (center : Vec3) (orientation : Quat) (radius : ℝ)
    (segments : ℕ) (i : ℕ) : Vec3 :=
  addVec3 center (rotateVec3ByQuat (ringLocalPos radius segments i) orientation)

/-- Outward normal of ring vertex `i`: the normalized rotated position. -/
noncomputable def ringVertexNormal (orientation : Quat) (radius : ℝ)
    (segments : ℕ) (i : ℕ) : Vec3 :=
  normalizeVec3 (rotateVec3ByQuat (ringLocalPos radius segments i) orientation)

structure RingData where
  positions : List ℝ
  normals : List ℝ

noncomputable def generateRing (center : Vec3) (orientation : Quat) (radius : ℝ)
    (segments : ℕ) : RingData :=
  { positions := ((List.range segments).map (fun i =>
      let p := ringVertexPos center orientation radius segments i
      [p.x, p.y, p.z])).flatten,
    normals := ((List.range segments).map (fun i =>
      let nv := ringVertexNormal orientation radius segments i
      [nv.x, nv.y, nv.z])).flatten }

/-- `connectRings`: two triangles per quad, wrapping `i+1` modulo
`segments`, with the winding of the source. -/
def connectRings (ring1Offset ring2Offset segments : ℕ) : List ℕ :=
  ((List.range segments).map (fun i =>
    let r1Current := ring1Offset + i
    let r2Current := ring2Offset + i
    let r1Next := ring1Offset + ((i + 1) % segments)
    let r2Next := ring2Offset + ((i + 1) % segments)
    [r1Current, r2Current, r1Next, r1Next, r2Current, r2Next])).flatten

/-- Stand-in for the source's non-null assertion on `nodes.find(...)`:
node lookups in `buildBranchGeometry` (and the turtle's `F` handler) always
succeed on skeletons the pipeline produces, so this default is never used
there. -/
def defaultSkeletonNode : SkeletonNode :=
  ⟨0, ⟨0, 0, 0⟩, ⟨0, 0, 0, 1⟩, 0, none, 0, false, false⟩

/-- Geometry contributed by one segment of the skeleton. -/
noncomputable def segmentGeometry (nodes : List SkeletonNode)
    (segInfos : List SegmentInfo) (config : BranchGeometryConfig)
    (segment : SkeletonSegment) (segmentIndex vertexOffset : ℕ) : GeometryData :=
  let startNode := (nodes.find? (fun n => n.id == segment.startNodeId)).getD defaultSkeletonNode
  let endNode := (nodes.find? (fun n => n.id == segment.endNodeId)).getD defaultSkeletonNode
  let vOffset := calculateVOffset segmentIndex segInfos config.textureRepeatY
  let startRing := generateRing startNode.position startNode.orientation
      segment.startRadius config.radialSegments
  let endRing := generateRing endNode.position endNode.orientation
      segment.endRadius config.radialSegments
  let ring1Offset := vertexOffset
  let ring2Offset := vertexOffset + config.radialSegments
  { positions := startRing.positions ++ endRing.positions,
    normals := startRing.normals ++ endRing.normals,
    uvs := ((List.range config.radialSegments).map (fun i =>
        let uv := calculateBranchUV 0 i 2 config.radialSegments
            segment.length config.textureRepeatY vOffset
        [uv.u, uv.v])).flatten
      ++ ((List.range config.radialSegments).map (fun i =>
        let uv := calculateBranchUV 1 i 2 config.radialSegments
            segment.length config.textureRepeatY vOffset
        [uv.u, uv.v])).flatten,
    indices := connectRings ring1Offset ring2Offset config.radialSegments }

/-- Loop of `buildBranchGeometry` over the segments, threading the running
segment index and vertex offset (the offset grows by `2 * radialSegments`
per segment). -/
noncomputable def buildBranchGeometryGo (nodes : List SkeletonNode)
    (segInfos : List SegmentInfo) (config : BranchGeometryConfig) :
    List SkeletonSegment → ℕ → ℕ → GeometryData
  | [], _, _ => ⟨[], [], [], []⟩
  | segment :: rest, segmentIndex, vertexOffset =>
    let here := segmentGeometry nodes segInfos config segment segmentIndex vertexOffset
    let there := buildBranchGeometryGo nodes segInfos config rest (segmentIndex + 1)
        (vertexOffset + config.radialSegments * 2)
    ⟨here.positions ++ there.positions, here.normals ++ there.normals,
     here.uvs ++ there.uvs, here.indices ++ there.indices⟩

noncomputable def buildBranchGeometry (skeleton : Skeleton)
    (config : BranchGeometryConfig) : GeometryData :=
  let segInfos := skeleton.segments.map (fun seg => SegmentInfo.mk seg.length)
  buildBranchGeometryGo skeleton.nodes segInfos config skeleton.segments 0 0

/-! ### Leaf geometry builder (src/tree/leafGeometry.ts)

In `createLeafShape` the row parameter is `t = row / segments`; for
`segments = 0` the JavaScript division `0/0` yields `NaN` where division
on ℝ yields `0` — the buffer lengths, which the claims are about, agree. -/

/-- Positions of one vertex row (left and right edge) of the leaf shape. -/
noncomputable def leafRowPositions (config : LeafShapeConfig) (row : ℕ) : List ℝ :=
  let t : ℝ := (row : ℝ) / (config.segments : ℝ)
  let y := t * config.length
  let z := config.curvature * t * t * config.length
  let halfWidth := config.width / 2
  [-halfWidth, y, z, halfWidth, y, z]

/-- Normals of one vertex row: cross product of the constant X tangent and
the curvature-tilted Y/Z tangent, applied to both row vertices. -/
noncomputable def leafRowNormals (config : LeafShapeConfig) (row : ℕ) : List ℝ :=
  let t : ℝ := (row : ℝ) / (config.segments : ℝ)
  let dzdy := 2 * config.curvature * t
  let tangentY := normalizeVec3 ⟨0, 1, dzdy⟩
  let tangentX : Vec3 := ⟨1, 0, 0⟩
  let normal := normalizeVec3 (crossVec3 tangentX tangentY)
  [normal.x, normal.y, normal.z, normal.x, normal.y, normal.z]

/-- UVs of one vertex row: `u = 0` left, `u = 1` right, `v = t`. -/
noncomputable def leafRowUVs (config : LeafShapeConfig) (row : ℕ) : List ℝ :=
  let t : ℝ := (row : ℝ) / (config.segments : ℝ)
  [0, t, 1, t]

/-- Triangle indices of one quad segment of the leaf strip. -/
def leafSegIndices (seg : ℕ) : List ℕ :=
  let bottomLeft := seg * 2
  let bottomRight := seg * 2 + 1
  let topLeft := (seg + 1) * 2
  let topRight := (seg + 1) * 2 + 1
  [bottomLeft, topLeft, topRight, bottomLeft, topRight, bottomRight]

/-- `createLeafShape`: `segments + 1` rows of 2 vertices and
`segments * 2` triangles. -/
noncomputable def createLeafShape (config : LeafShapeConfig) : GeometryData :=
  { positions := ((List.range (config.segments + 1)).map (leafRowPositions config)).flatten,
    normals := ((List.range (config.segments + 1)).map (leafRowNormals config)).flatten,
    uvs := ((List.range (config.segments + 1)).map (leafRowUVs config)).flatten,
    indices := ((List.range config.segments).map leafSegIndices).flatten }

/-- Clamp to `[0, 1]`: `Math.max(0, Math.min(1, x))`. -/
noncomputable def clamp01 (x : ℝ) : ℝ := max 0 (min 1 x)

/-- Per-instance data of one leaf in `buildLeafInstances`, consuming the
seven draws `f k, …, f (k+6)` in source order (size multiplier, X/Y/Z
rotational scatter, R/G/B color perturbation): the packed column-major 4×4
matrix and the RGB color triple. -/
noncomputable def leafInstance (cfg : LeafInstanceConfig) (f : ℕ → ℝ) (k : ℕ)
    (leaf : LeafPoint) : List ℝ × List ℝ :=
  let sizeMult := 1 + (f k * 2 - 1) * cfg.sizeVariation
  let scatterX := (f (k + 1) * 2 - 1) * cfg.rotationScatter
  let scatterY := (f (k + 2) * 2 - 1) * cfg.rotationScatter
  let scatterZ := (f (k + 3) * 2 - 1) * cfg.rotationScatter
  let rVar := (f (k + 4) * 2 - 1) * cfg.colorVariation
  let gVar := (f (k + 5) * 2 - 1) * cfg.colorVariation
  let bVar := (f (k + 6) * 2 - 1) * cfg.colorVariation
  let colors := [clamp01 (cfg.baseColor.r + rVar), clamp01 (cfg.baseColor.g + gVar),
                 clamp01 (cfg.baseColor.b + bVar)]
  let orientation :=
    if 0 < cfg.rotationScatter then
      let scatterQuatX := quatFromAxisAngle ⟨1, 0, 0⟩ scatterX
      let scatterQuatY := quatFromAxisAngle ⟨0, 1, 0⟩ scatterY
      let scatterQuatZ := quatFromAxisAngle ⟨0, 0, 1⟩ scatterZ
      multiplyQuat leaf.orientation
        (multiplyQuat scatterQuatX (multiplyQuat scatterQuatY scatterQuatZ))
    else leaf.orientation
  let scale := leaf.size * sizeMult
  let q := orientation
  let xx := q.x * q.x
  let yy := q.y * q.y
  let zz := q.z * q.z
  let xy := q.x * q.y
  let xz := q.x * q.z
  let yz := q.y * q.z
  let wx := q.w * q.x
  let wy := q.w * q.y
  let wz := q.w * q.z
  let r00 := (1 - 2 * (yy + zz)) * scale
  let r01 := 2 * (xy - wz) * scale
  let r02 := 2 * (xz + wy) * scale
  let r10 := 2 * (xy + wz) * scale
  let r11 := (1 - 2 * (xx + zz)) * scale
  let r12 := 2 * (yz - wx) * scale
  let r20 := 2 * (xz - wy) * scale
  let r21 := 2 * (yz + wx) * scale
  let r22 := (1 - 2 * (xx + yy)) * scale
  ([r00, r10, r20, 0, r01, r11, r21, 0, r02, r12, r22, 0,
    leaf.position.x, leaf.position.y, leaf.position.z, 1], colors)

/-- Instance loop of `buildLeafInstances`: each leaf consumes exactly seven
draws, so instance `i` starts at cursor `7 * i`. -/
noncomputable def buildLeafInstancesGo (cfg : LeafInstanceConfig) (f : ℕ → ℝ) :
    List LeafPoint → ℕ → List ℝ × List ℝ
  | [], _ => ([], [])
  | leaf :: rest, k =>
    let inst := leafInstance cfg f k leaf
    let acc := buildLeafInstancesGo cfg f rest (k + 7)
    (inst.1 ++ acc.1, inst.2 ++ acc.2)

/-- The dedicated random stream of `buildLeafInstances`: the generator
created by `createRandom({seed})` from the leaf-instance seed, cast to ℝ. -/
noncomputable def leafRandomStream (seed : String) : ℕ → ℝ :=
  fun n => ((createRandomStream seed n : ℚ) : ℝ)

/-- `buildLeafInstances({leaves, config})`: early return for an empty leaf
list, otherwise one matrix/color block per leaf drawn from the dedicated
seeded stream. -/
noncomputable def buildLeafInstances (leaves : List LeafPoint)
    (cfg : LeafInstanceConfig) : LeafInstanceData :=
  if leaves.length = 0 then ⟨[], [], 0⟩
  else
    let res := buildLeafInstancesGo cfg (leafRandomStream cfg.seed) leaves 0
    ⟨res.1, res.2, leaves.length⟩

/-! ### Tree builder configuration (src/tree/TreeBuilder.ts) -/

/-- Complete configuration for tree generation. -/
structure TreeConfig where
  lsystem : LSystem
  iterations : ℕ
  seed : String
  turtleConfig : TurtleConfig
  branchConfig : BranchGeometryConfig
  leafShapeConfig : LeafShapeConfig
  leafInstanceConfig : LeafInstanceConfig

/-- `defaultTreeConfig()`: the default configuration, including the
constant leaf-instance seed `"leaves"` (while the tree seed is
`"default-tree"`). -/
noncomputable def defaultTreeConfig : TreeConfig :=
  { lsystem :=
      { axiomText := "X",
        rules :=
          [⟨'X', 1.0, Produce.literal "F[+X][-X]FL"⟩,
           ⟨'F', 1.0, Produce.literal "FF"⟩],
        config :=
          { baseLength := 0.5, baseRadius := 0.1, lengthFalloff := 0.85,
            radiusFalloff := 0.7, branchAngle := 25, variability := 0.15 } },
    iterations := 4,
    seed := "default-tree",
    turtleConfig :=
      { baseRadius := 0.1, radiusFalloff := 0.7,
        upVector := ⟨0, 1, 0⟩, forwardVector := ⟨0, 1, 0⟩ },
    branchConfig := { radialSegments := 8, textureRepeatY := 2.0 },
    leafShapeConfig := { width := 0.15, length := 0.25, curvature := 0.1, segments := 2 },
    leafInstanceConfig :=
      { baseColor := ⟨0.13, 0.55, 0.13⟩, colorVariation := 0.1,
        sizeVariation := 0.2, rotationScatter := 0.3, seed := "leaves" } }

/-! ### 3D turtle interpreter (src/tree/turtle3d.ts) -/

/-- Mutable cursor state of the turtle. -/
structure TurtleState where
  position : Vec3
  orientation : Quat
  radius : ℝ
  depth : ℕ
  currentNodeId : ℕ

noncomputable def degreesToRadians (degrees : ℝ) : ℝ := degrees * Real.pi / 180

def getForward (orientation : Quat) : Vec3 := rotateVec3ByQuat ⟨0, 1, 0⟩ orientation

def getRight (orientation : Quat) : Vec3 := rotateVec3ByQuat ⟨1, 0, 0⟩ orientation

def getUp (orientation : Quat) : Vec3 := rotateVec3ByQuat ⟨0, 0, 1⟩ orientation

def createNode (id : ℕ) (position : Vec3) (orientation : Quat) (radius : ℝ)
    (parentId : Option ℕ) (depth : ℕ) : SkeletonNode :=
  ⟨id, position, orientation, radius, parentId, depth, false, false⟩

def createSegment (startNode endNode : SkeletonNode) (length : ℝ) : SkeletonSegment :=
  ⟨startNode.id, endNode.id, startNode.radius, endNode.radius, length⟩

/-- Accumulated interpreter state of `interpretSentence`: result lists, the
child-count map (modelled as a total function, absent keys mapping to 0),
the node-id counter, the saved-state stack and the cursor state. -/
structure IState where
  nodes : List SkeletonNode
  segments : List SkeletonSegment
  leaves : List LeafPoint
  childCounts : ℕ → ℕ
  nextNodeId : ℕ
  stateStack : List TurtleState
  st : TurtleState

/-- One iteration of the symbol loop of `interpretSentence`. -/
noncomputable def interpStep (config : TurtleConfig) (s : IState) (sym : Symb ℝ) : IState :=
  if sym.symbol = 'F' then
    let length := sym.params.length.getD 1.0
    let forward := getForward s.st.orientation
    let movement := scaleVec3 forward length
    let newPosition := addVec3 s.st.position movement
    let newRadius := config.baseRadius * config.radiusFalloff ^ s.st.depth
    let newNode := createNode s.nextNodeId newPosition s.st.orientation newRadius
        (some s.st.currentNodeId) s.st.depth
    let currentNode := (s.nodes.find? (fun n => n.id == s.st.currentNodeId)).getD
        defaultSkeletonNode
    let segment := createSegment currentNode newNode length
    { s with
        nodes := s.nodes ++ [newNode],
        segments := s.segments ++ [segment],
        childCounts := Function.update s.childCounts s.st.currentNodeId
          (s.childCounts s.st.currentNodeId + 1),
        nextNodeId := s.nextNodeId + 1,
        st := { s.st with position := newPosition, radius := newRadius,
                          currentNodeId := s.nextNodeId } }
  else if sym.symbol = '+' then
    let angleDegrees := sym.params.angle.getD 30
    let rotation := quatFromAxisAngle (getUp s.st.orientation) (degreesToRadians angleDegrees)
    { s with st := { s.st with orientation := multiplyQuat s.st.orientation rotation } }
  else if sym.symbol = '-' then
    let angleDegrees := sym.params.angle.getD 30
    let rotation := quatFromAxisAngle (getUp s.st.orientation) (degreesToRadians (-angleDegrees))
    { s with st := { s.st with orientation := multiplyQuat s.st.orientation rotation } }
  else if sym.symbol = '^' then
    let angleDegrees := sym.params.angle.getD 30
    let rotation := quatFromAxisAngle (getRight s.st.orientation) (degreesToRadians angleDegrees)
    { s with st := { s.st with orientation := multiplyQuat s.st.orientation rotation } }
  else if sym.symbol = '&' then
    let angleDegrees := sym.params.angle.getD 30
    let rotation := quatFromAxisAngle (getRight s.st.orientation) (degreesToRadians (-angleDegrees))
    { s with st := { s.st with orientation := multiplyQuat s.st.orientation rotation } }
  else if sym.symbol = '/' then
    let angleDegrees := sym.params.angle.getD 30
    let rotation := quatFromAxisAngle (getForward s.st.orientation) (degreesToRadians angleDegrees)
    { s with st := { s.st with orientation := multiplyQuat s.st.orientation rotation } }
  else if sym.symbol = '\\' then
    let angleDegrees := sym.params.angle.getD 30
    let rotation := quatFromAxisAngle (getForward s.st.orientation) (degreesToRadians (-angleDegrees))
    { s with st := { s.st with orientation := multiplyQuat s.st.orientation rotation } }
  else if sym.symbol = '[' then
    -- push a copy of the cursor state, then increment the live depth
    { s with stateStack := s.st :: s.stateStack,
             st := { s.st with depth := s.st.depth + 1 } }
  else if sym.symbol = ']' then
    -- pop: restore the most recently pushed state; no-op on an empty stack
    match s.stateStack with
    | [] => s
    | saved :: rest => { s with st := saved, stateStack := rest }
  else if sym.symbol = 'L' then
    let leafSize := sym.params.size.getD 1.0
    { s with leaves := s.leaves ++ [⟨s.st.position, s.st.orientation, leafSize⟩] }
  else
    s

/-- Initial cursor state: origin, identity orientation, base radius. -/
def initialTurtleState (config : TurtleConfig) : TurtleState :=
  { position := ⟨0, 0, 0⟩, orientation := identityQuat, radius := config.baseRadius,
    depth := 0, currentNodeId := 0 }

/-- The root node (id 0, no parent), emitted before any symbol. -/
def rootNode (config : TurtleConfig) : SkeletonNode :=
  createNode 0 ⟨0, 0, 0⟩ identityQuat config.baseRadius none 0

def initialIState (config : TurtleConfig) : IState :=
  { nodes := [rootNode config], segments := [], leaves := [],
    childCounts := fun _ => 0, nextNodeId := 1, stateStack := [],
    st := initialTurtleState config }

/-- Post-pass of `interpretSentence`: mark branch points (child count > 1)
and terminal nodes (no outgoing segment).  The source iterates over map
entries and the node list, setting the flags to `true` and never clearing
them; since node ids are unique this is the same per-node update. -/
noncomputable def annotateNodes (cc : ℕ → ℕ) (segments : List SkeletonSegment)
    (nodes : List SkeletonNode) : List SkeletonNode :=
  nodes.map (fun n =>
    { n with
        isBranchPoint := n.isBranchPoint || decide (1 < cc n.id),
        isTerminal := n.isTerminal ||
          !((segments.map SkeletonSegment.startNodeId).contains n.id) })

/-- `interpretSentence({sentence, config})`: fold the symbol handlers over
the sentence from the initial state, then annotate the nodes. -/
noncomputable def interpretSentence (sentence : List (Symb ℝ)) (config : TurtleConfig) :
    Skeleton :=
  let final := sentence.foldl (interpStep config) (initialIState config)
  { nodes := annotateNodes final.childCounts final.segments final.nodes,
    segments := final.segments,
    leaves := final.leaves }

/-! ### Specification helpers and concrete sample inputs -/

/-- Total odds of a candidate list
(`rules.reduce((sum, rule) => sum + rule.odds, 0)`). -/
def totalOdds (rules : List Rule) : ℚ := (rules.map Rule.odds).sum

/-- Cumulative odds of the first `i + 1` candidates, in list order. -/
def cumOdds (rules : List Rule) (i : ℕ) : ℚ := ((rules.take (i + 1)).map Rule.odds).sum

/-- Loop invariant of the interpreter fold: the child-count map counts the
segments starting at each node id, flags are unset before the post-pass,
and the cursor (and every saved state) points at an existing node. -/
def InterpInv (s : IState) : Prop :=
  (∀ id : ℕ, s.childCounts id = s.segments.countP (fun seg => seg.startNodeId == id))
  ∧ (∀ n ∈ s.nodes, n.isBranchPoint = false ∧ n.isTerminal = false)
  ∧ (∃ n ∈ s.nodes, n.id = s.st.currentNodeId)
  ∧ (∀ t ∈ s.stateStack, ∃ n ∈ s.nodes, n.id = t.currentNodeId)

/-- Sample turtle configuration for concrete evaluations. -/
def sampleTurtleConfig : TurtleConfig := ⟨1, 1, ⟨0, 1, 0⟩, ⟨0, 1, 0⟩⟩

/-- Sample leaf placement point for concrete evaluations. -/
def sampleLeaf : LeafPoint := ⟨⟨0, 0, 0⟩, ⟨0, 0, 0, 1⟩, 1⟩

/-- The annotated root node of the empty-sentence skeleton under
`sampleTurtleConfig`. -/
def sampleRootNode : SkeletonNode := ⟨0, ⟨0, 0, 0⟩, ⟨0, 0, 0, 1⟩, 1, none, 0, true, false⟩

/-! ## Theorems -/

/-- **C10.** For the empty sentence and any turtle config, `interpretSentence`
returns a skeleton with exactly one node — the root: id 0, no parent,
depth 0, position at the origin, identity orientation, radius
`config.baseRadius` — zero segments, zero leaves, and the root is marked
terminal and not a branch point. -/
theorem interpretSentence_empty (config : TurtleConfig) :
    interpretSentence [] config =
      ⟨[⟨0, ⟨0, 0, 0⟩, ⟨0, 0, 0, 1⟩, config.baseRadius, none, 0, true, false⟩], [], []⟩ :=
  rfl

/-- **C9.** Processing a `]` symbol with an empty state stack is a no-op:
the cursor state and the accumulated nodes, segments and leaves are all
left unchanged. -/
theorem interpStep_pop_empty (config : TurtleConfig) (s : IState) (sym : Symb ℝ)
    (hsym : sym.symbol = ']') (hstack : s.stateStack = []) :
    interpStep config s sym = s := by
  simp [interpStep, hsym, hstack]

theorem interpStep_pop_empty_witness :
    interpStep sampleTurtleConfig (initialIState sampleTurtleConfig) ⟨']', {}⟩
      = initialIState sampleTurtleConfig :=
  interpStep_pop_empty sampleTurtleConfig (initialIState sampleTurtleConfig) ⟨']', {}⟩ rfl rfl

/-- **C2.** Over integer bounds `lo ≤ hi` and any draw `r ∈ [0,1)`,
`randomInt` returns `lo + ⌊r * (hi - lo + 1)⌋`, stays within `[lo, hi]`,
and both ends are attainable by suitable draws. -/
theorem randomInt_spec (lo hi : ℤ) (hle : lo ≤ hi) (r : ℚ) (h0 : 0 ≤ r) (h1 : r < 1) :
    randomInt (lo : ℚ) (hi : ℚ) r = ((lo + ⌊r * ((hi : ℚ) - (lo : ℚ) + 1)⌋ : ℤ) : ℚ)
    ∧ (lo : ℚ) ≤ randomInt (lo : ℚ) (hi : ℚ) r
    ∧ randomInt (lo : ℚ) (hi : ℚ) r ≤ (hi : ℚ)
    ∧ (∃ r0 : ℚ, 0 ≤ r0 ∧ r0 < 1 ∧ randomInt (lo : ℚ) (hi : ℚ) r0 = (lo : ℚ))
    ∧ (∃ r1 : ℚ, 0 ≤ r1 ∧ r1 < 1 ∧ randomInt (lo : ℚ) (hi : ℚ) r1 = (hi : ℚ)) := by
  have hn : (0 : ℚ) < (hi : ℚ) - (lo : ℚ) + 1 := by
    have : (lo : ℚ) ≤ (hi : ℚ) := by exact_mod_cast hle
    linarith
  have key : ∀ s : ℚ, 0 ≤ s → s < 1 →
      randomInt (lo : ℚ) (hi : ℚ) s = ((lo + ⌊s * ((hi : ℚ) - (lo : ℚ) + 1)⌋ : ℤ) : ℚ) := by
    intro s _ _
    unfold randomInt
    rw [Int.floor_int_add]
  refine ⟨key r h0 h1, ?_, ?_, ?_, ?_⟩
  · rw [key r h0 h1]
    have h2 : (0 : ℤ) ≤ ⌊r * ((hi : ℚ) - (lo : ℚ) + 1)⌋ :=
      Int.floor_nonneg.mpr (mul_nonneg h0 (le_of_lt hn))
    have h2q : (0 : ℚ) ≤ ((⌊r * ((hi : ℚ) - (lo : ℚ) + 1)⌋ : ℤ) : ℚ) := by exact_mod_cast h2
    push_cast
    push_cast at h2q
    linarith
  · rw [key r h0 h1]
    have h3 : r * ((hi : ℚ) - (lo : ℚ) + 1) < (hi : ℚ) - (lo : ℚ) + 1 := by
      nlinarith
    have h4 : (⌊r * ((hi : ℚ) - (lo : ℚ) + 1)⌋ : ℚ) ≤ r * ((hi : ℚ) - (lo : ℚ) + 1) :=
      Int.floor_le _
    have h5 : (⌊r * ((hi : ℚ) - (lo : ℚ) + 1)⌋ : ℚ) < (hi : ℚ) - (lo : ℚ) + 1 :=
      lt_of_le_of_lt h4 h3
    have h6 : ⌊r * ((hi : ℚ) - (lo : ℚ) + 1)⌋ < hi - lo + 1 := by exact_mod_cast h5
    have h7 : ⌊r * ((hi : ℚ) - (lo : ℚ) + 1)⌋ ≤ hi - lo := by omega
    have h7q : ((⌊r * ((hi : ℚ) - (lo : ℚ) + 1)⌋ : ℤ) : ℚ) ≤ (hi : ℚ) - (lo : ℚ) := by
      exact_mod_cast h7
    push_cast
    push_cast at h7q
    linarith
  · refine ⟨0, le_refl 0, by norm_num, ?_⟩
    rw [key 0 (le_refl 0) (by norm_num)]
    simp
  · set n : ℚ := (hi : ℚ) - (lo : ℚ) + 1 with hdefn
    have hr0 : 0 ≤ (n - 1) / n := by
      apply div_nonneg _ (le_of_lt hn)
      have : (lo : ℚ) ≤ (hi : ℚ) := by exact_mod_cast hle
      simp only [hdefn]
      linarith
    have hr1 : (n - 1) / n < 1 := by rw [div_lt_one hn]; linarith
    refine ⟨(n - 1) / n, hr0, hr1, ?_⟩
    rw [key _ hr0 hr1]
    have hmul : (n - 1) / n * n = n - 1 := by
      field_simp
    rw [hmul]
    have : n - 1 = ((hi - lo : ℤ) : ℚ) := by simp only [hdefn]; push_cast; ring
    rw [this, Int.floor_intCast]
    push_cast
    ring

theorem randomInt_spec_witness :
    randomInt ((2 : ℤ) : ℚ) ((5 : ℤ) : ℚ) (1 / 3)
      = (((2 : ℤ) + ⌊(1 / 3 : ℚ) * (((5 : ℤ) : ℚ) - ((2 : ℤ) : ℚ) + 1)⌋ : ℤ) : ℚ) :=
  (randomInt_spec 2 5 (by decide) (1 / 3) (by norm_num) (by norm_num)).1

/-- **C7.** `createSymbol` at depth `d`: `F` gets
`length = baseLength * lengthFalloff^d * v`, rotation characters get
`angle = branchAngle * v`, `L` gets `size = 1` with no randomness, all
other characters get empty params; the variability factor `v` is `1` with
no draw when `variability = 0`, else `1 + variability * (r - 0.5) * 2`
consuming exactly one draw, and lies in `[1 - variability, 1 + variability]`
for draws in `[0, 1)`. -/
theorem createSymbol_spec (char : Char) (p : SymbolParams ℚ) (f : ℕ → ℚ)
    (config : LSystemConfig) (depth : ℤ) (k : ℕ) :
    (config.variability = 0 → getVariabilityFactor config f k = (1, k))
    ∧ (config.variability ≠ 0 →
        getVariabilityFactor config f k = (1 + config.variability * (f k - 0.5) * 2, k + 1))
    ∧ (0 ≤ f k → f k < 1 → 0 ≤ config.variability →
        1 - config.variability ≤ (getVariabilityFactor config f k).1
        ∧ (getVariabilityFactor config f k).1 ≤ 1 + config.variability)
    ∧ (char = 'F' → createSymbol char p f config depth k =
        (⟨'F', { length := some (config.baseLength * config.lengthFalloff ^ depth
            * (getVariabilityFactor config f k).1) }⟩, (getVariabilityFactor config f k).2))
    ∧ (char ∈ rotationSymbols → createSymbol char p f config depth k =
        (⟨char, { angle := some (config.branchAngle * (getVariabilityFactor config f k).1) }⟩,
          (getVariabilityFactor config f k).2))
    ∧ (char = 'L' → createSymbol char p f config depth k = (⟨'L', { size := some 1 }⟩, k))
    ∧ (char ≠ 'F' → char ∉ rotationSymbols → char ≠ 'L' →
        createSymbol char p f config depth k = (⟨char, {}⟩, k)) := by
  refine ⟨?_, ?_, ?_, ?_, ?_, ?_, ?_⟩
  · intro h; simp [getVariabilityFactor, h]
  · intro h; simp [getVariabilityFactor, h]
  · intro h0 h1 hv
    by_cases h : config.variability = 0
    · simp only [getVariabilityFactor, if_pos h, h]
      norm_num
    · simp only [getVariabilityFactor, if_neg h]
      constructor
      · nlinarith [mul_nonneg hv h0]
      · nlinarith [mul_nonneg hv h0]
  · intro h; subst h; simp [createSymbol]
  · intro h
    have hf : char ≠ 'F' := by rintro rfl; simp [rotationSymbols] at h
    simp [createSymbol, hf, h]
  · intro h; subst h; simp [createSymbol, rotationSymbols]
  · intro h1 h2 h3; simp [createSymbol, h1, h2, h3]

theorem createSymbol_spec_witness :
    createSymbol 'F' {} (fun _ => 0) ⟨3, 1, 2, 1, 30, 0⟩ 0 0 =
      (⟨'F', { length := some ((3 : ℚ) * (2 : ℚ) ^ (0 : ℤ)
          * (getVariabilityFactor ⟨3, 1, 2, 1, 30, 0⟩ (fun _ => 0) 0).1) }⟩,
        (getVariabilityFactor ⟨3, 1, 2, 1, 30, 0⟩ (fun _ => 0) 0).2) :=
  (createSymbol_spec 'F' {} (fun _ => 0) ⟨3, 1, 2, 1, 30, 0⟩ 0 0).2.2.2.1 rfl

/-- Cumulative odds of a cons cell at index 0. -/
theorem cumOdds_zero (rule : Rule) (rest : List Rule) :
    cumOdds (rule :: rest) 0 = rule.odds := by
  simp [cumOdds]

/-- Cumulative odds of a cons cell at a successor index. -/
theorem cumOdds_succ (rule : Rule) (rest : List Rule) (i : ℕ) :
    cumOdds (rule :: rest) (i + 1) = rule.odds + cumOdds rest i := by
  simp [cumOdds]

/-- The source's `reduce` over the odds equals `totalOdds`. -/
theorem foldl_odds (rules : List Rule) (a : ℚ) :
    rules.foldl (fun sum rule => sum + rule.odds) a = a + totalOdds rules := by
  induction rules generalizing a with
  | nil => simp [totalOdds]
  | cons rule rest ih =>
    simp only [List.foldl_cons, ih, totalOdds, List.map_cons, List.sum_cons]
    ring

/-- Characterization of the accumulation scan: it yields the first rule
whose cumulative odds exceeds the drawn value, and `none` exactly when no
candidate's cumulative odds does. -/
theorem scanRules_spec (rules : List Rule) (acc r : ℚ) :
    (∃ i : ℕ, ∃ hi : i < rules.length,
        r < acc + cumOdds rules i
        ∧ (∀ j < i, ¬ r < acc + cumOdds rules j)
        ∧ scanRules rules acc r = some (rules.get ⟨i, hi⟩))
    ∨ ((∀ i < rules.length, ¬ r < acc + cumOdds rules i)
        ∧ scanRules rules acc r = none) := by
  induction rules generalizing acc with
  | nil =>
    right
    exact ⟨fun i hi => absurd hi (Nat.not_lt_zero i), rfl⟩
  | cons rule rest ih =>
    by_cases h : r < acc + rule.odds
    · left
      refine ⟨0, Nat.succ_pos _, ?_, ?_, ?_⟩
      · rw [cumOdds_zero]; exact h
      · omega
      · simp [scanRules, h]
    · rcases ih (acc + rule.odds) with ⟨i, hi, h1, h2, h3⟩ | ⟨h1, h3⟩
      · left
        refine ⟨i + 1, Nat.succ_lt_succ hi, ?_, ?_, ?_⟩
        · rw [cumOdds_succ]; linarith
        · intro j hj
          match j with
          | 0 => rw [cumOdds_zero]; exact h
          | j' + 1 =>
            rw [cumOdds_succ]
            have hj' := h2 j' (by omega)
            intro hc; exact hj' (by linarith)
        · simpa [scanRules, h] using h3
      · right
        refine ⟨?_, by simpa [scanRules, h] using h3⟩
        intro i hilen
        match i with
        | 0 => rw [cumOdds_zero]; exact h
        | i' + 1 =>
          rw [cumOdds_succ]
          have hi' := h1 i' (by simpa using hilen)
          intro hc; exact hi' (by linarith)

/-- **C3.** `selectRule`: a single candidate is returned without consuming
a draw; otherwise exactly one draw is consumed, the threshold is
`r * totalOdds`, and the first rule in list order whose cumulative odds
exceeds the threshold is returned — or the last candidate when none
does. -/
theorem selectRule_spec (rules : List Rule) (f : ℕ → ℚ) (k : ℕ) (hne : rules ≠ []) :
    (∀ rule, rules = [rule] → selectRule rules f k = (some rule, k))
    ∧ (rules.length ≠ 1 →
        (selectRule rules f k).2 = k + 1
        ∧ ((∃ i : ℕ, ∃ hi : i < rules.length,
              f k * totalOdds rules < cumOdds rules i
              ∧ (∀ j < i, ¬ f k * totalOdds rules < cumOdds rules j)
              ∧ (selectRule rules f k).1 = some (rules.get ⟨i, hi⟩))
           ∨ ((∀ i < rules.length, ¬ f k * totalOdds rules < cumOdds rules i)
              ∧ (selectRule rules f k).1 = some (rules.getLast hne)))) := by
  constructor
  · rintro rule rfl
    simp [selectRule]
  · intro hlen
    have e : selectRule rules f k =
        (match scanRules rules 0 (f k * totalOdds rules) with
          | some rule => (some rule, k + 1)
          | none => (rules.getLast?, k + 1)) := by
      simp only [selectRule, if_neg hlen, foldl_odds, zero_add]
    rcases scanRules_spec rules 0 (f k * totalOdds rules) with ⟨i, hi, h1, h2, h3⟩ | ⟨h1, h3⟩
    · rw [h3] at e
      refine ⟨by rw [e], Or.inl ⟨i, hi, ?_, ?_, by rw [e]⟩⟩
      · simpa using h1
      · intro j hj
        have := h2 j hj
        simpa using this
    · rw [h3] at e
      refine ⟨by rw [e], Or.inr ⟨?_, ?_⟩⟩
      · intro i hilen
        have := h1 i hilen
        simpa using this
      · rw [e, List.getLast?_eq_getLast rules hne]

theorem selectRule_spec_witness :
    ([⟨'F', (1 : ℚ) / 2, Produce.literal "A"⟩, ⟨'F', (1 : ℚ) / 2, Produce.literal "B"⟩]
        : List Rule) ≠ []
    ∧ (selectRule
        [⟨'F', (1 : ℚ) / 2, Produce.literal "A"⟩, ⟨'F', (1 : ℚ) / 2, Produce.literal "B"⟩]
        (fun _ => 3 / 4) 0).2 = 0 + 1 :=
  ⟨by simp,
    ((selectRule_spec
      [⟨'F', (1 : ℚ) / 2, Produce.literal "A"⟩, ⟨'F', (1 : ℚ) / 2, Produce.literal "B"⟩]
      (fun _ => 3 / 4) 0 (by simp)).2 (by simp)).1⟩

/-- `createSymbol` preserves the character. -/
theorem createSymbol_symbol (char : Char) (p : SymbolParams ℚ) (f : ℕ → ℚ)
    (config : LSystemConfig) (depth : ℤ) (k : ℕ) :
    ((createSymbol char p f config depth k).1).symbol = char := by
  simp only [createSymbol]
  split_ifs <;> rfl

/-- One rewriting pass with the single rule `F → FF` doubles an all-`F`
sentence and keeps it all-`F`. -/
theorem applyRulesGo_FF (cfg : LSystemConfig) (f : ℕ → ℚ) :
    ∀ (sentence : List (Symb ℚ)) (depth : ℤ) (k : ℕ),
      (∀ s ∈ sentence, s.symbol = 'F') →
      (∀ s ∈ (applyRulesGo [⟨'F', 1, Produce.literal "FF"⟩] f cfg sentence depth k).1,
          s.symbol = 'F')
      ∧ (applyRulesGo [⟨'F', 1, Produce.literal "FF"⟩] f cfg sentence depth k).1.length
          = 2 * sentence.length := by
  intro sentence
  induction sentence with
  | nil =>
    intro depth k _
    constructor
    · intro s hs; simp [applyRulesGo] at hs
    · simp [applyRulesGo]
  | cons sym rest ih =>
    intro depth k h
    have hsym : sym.symbol = 'F' := h sym (List.mem_cons_self _ _)
    have hrest : ∀ s ∈ rest, s.symbol = 'F' := fun s hs => h s (List.mem_cons_of_mem _ hs)
    have step : applyRulesGo [⟨'F', 1, Produce.literal "FF"⟩] f cfg (sym :: rest) depth k
        = ((parseProduction "FF" f cfg depth k).1
            ++ (applyRulesGo [⟨'F', 1, Produce.literal "FF"⟩] f cfg rest depth
                (parseProduction "FF" f cfg depth k).2).1,
           (applyRulesGo [⟨'F', 1, Produce.literal "FF"⟩] f cfg rest depth
                (parseProduction "FF" f cfg depth k).2).2) := by
      simp [applyRulesGo, hsym, List.filter, selectRule]
    have hpp : parseProduction "FF" f cfg depth k
        = ((createSymbol 'F' {} f cfg depth k).1 ::
            [(createSymbol 'F' {} f cfg depth (createSymbol 'F' {} f cfg depth k).2).1],
           (createSymbol 'F' {} f cfg depth (createSymbol 'F' {} f cfg depth k).2).2) := rfl
    obtain ⟨ih1, ih2⟩ := ih depth (parseProduction "FF" f cfg depth k).2 hrest
    constructor
    · intro s hs
      rw [step] at hs
      rcases List.mem_append.mp hs with hL | hR
      · rw [hpp] at hL
        simp only [List.mem_cons, List.mem_singleton, List.not_mem_nil, or_false] at hL
        rcases hL with h1 | h1
        · rw [h1]; exact createSymbol_symbol ..
        · rw [h1]; exact createSymbol_symbol ..
      · exact ih1 s hR
    · rw [step]
      simp only [List.length_append, ih2]
      have hlen2 : (parseProduction "FF" f cfg depth k).1.length = 2 := by rw [hpp]; rfl
      rw [hlen2, List.length_cons]
      ring

/-- Iterating the `F → FF` pass `n` times multiplies the length of an
all-`F` sentence by `2^n`. -/
theorem generateSentenceGo_FF (cfg : LSystemConfig) (f : ℕ → ℚ) :
    ∀ (n : ℕ) (sk : List (Symb ℚ) × ℕ),
      (∀ s ∈ sk.1, s.symbol = 'F') →
      (∀ s ∈ (generateSentenceGo [⟨'F', 1, Produce.literal "FF"⟩] f cfg n sk).1,
          s.symbol = 'F')
      ∧ (generateSentenceGo [⟨'F', 1, Produce.literal "FF"⟩] f cfg n sk).1.length
          = 2 ^ n * sk.1.length := by
  intro n
  induction n with
  | zero => intro sk h; exact ⟨h, by simp [generateSentenceGo]⟩
  | succ m ih =>
    intro sk h
    obtain ⟨h1, h2⟩ := applyRulesGo_FF cfg f sk.1 0 sk.2 h
    obtain ⟨g1, g2⟩ := ih (applyRules sk.1 [⟨'F', 1, Produce.literal "FF"⟩] f cfg sk.2) h1
    refine ⟨g1, ?_⟩
    show (generateSentenceGo [⟨'F', 1, Produce.literal "FF"⟩] f cfg m
        (applyRules sk.1 [⟨'F', 1, Produce.literal "FF"⟩] f cfg sk.2)).1.length
      = 2 ^ (m + 1) * sk.1.length
    rw [g2]
    show 2 ^ m * (applyRulesGo [⟨'F', 1, Produce.literal "FF"⟩] f cfg sk.1 0 sk.2).1.length
      = 2 ^ (m + 1) * sk.1.length
    rw [h2]
    ring

/-- **C8.** For the L-system with axiom `"F"` and the single rule
`F → FF` (odds 1), `generateSentence` with 3 iterations and any seed
returns exactly 8 symbols, all `'F'`; more generally the length after `n`
iterations is `2^n`. -/
theorem generateSentence_FF (seed : String) (cfg : LSystemConfig) :
    ((generateSentence ⟨"F", [⟨'F', 1, Produce.literal "FF"⟩], cfg⟩ 3 seed).length = 8
      ∧ ∀ s ∈ generateSentence ⟨"F", [⟨'F', 1, Produce.literal "FF"⟩], cfg⟩ 3 seed,
          s.symbol = 'F')
    ∧ ∀ n : ℕ,
        (generateSentence ⟨"F", [⟨'F', 1, Produce.literal "FF"⟩], cfg⟩ n seed).length
          = 2 ^ n := by
  have main : ∀ n : ℕ,
      (∀ s ∈ generateSentence ⟨"F", [⟨'F', 1, Produce.literal "FF"⟩], cfg⟩ n seed,
          s.symbol = 'F')
      ∧ (generateSentence ⟨"F", [⟨'F', 1, Produce.literal "FF"⟩], cfg⟩ n seed).length
          = 2 ^ n := by
    intro n
    have hax : ∀ s ∈ (parseProduction "F" (createRandomStream seed) cfg 0 0).1,
        s.symbol = 'F' := by
      intro s hs
      have : (parseProduction "F" (createRandomStream seed) cfg 0 0).1
          = [(createSymbol 'F' {} (createRandomStream seed) cfg 0 0).1] := rfl
      rw [this, List.mem_singleton] at hs
      rw [hs]
      exact createSymbol_symbol ..
    obtain ⟨g1, g2⟩ := generateSentenceGo_FF cfg (createRandomStream seed) n
      (parseProduction "F" (createRandomStream seed) cfg 0 0) hax
    refine ⟨g1, ?_⟩
    rw [show (generateSentence ⟨"F", [⟨'F', 1, Produce.literal "FF"⟩], cfg⟩ n seed)
        = (generateSentenceGo [⟨'F', 1, Produce.literal "FF"⟩] (createRandomStream seed) cfg n
            (parseProduction "F" (createRandomStream seed) cfg 0 0)).1 from rfl]
    rw [g2]
    rw [show (parseProduction "F" (createRandomStream seed) cfg 0 0).1.length = 1 from rfl]
    ring
  exact ⟨⟨by rw [(main 3).2]; norm_num, (main 3).1⟩, fun n => (main n).2⟩

theorem generateSentence_FF_witness :
    (generateSentence ⟨"F", [⟨'F', 1, Produce.literal "FF"⟩], ⟨1, 1, 1, 1, 30, 0⟩⟩
        3 "any-seed").length = 8 :=
  (generateSentence_FF "any-seed" ⟨1, 1, 1, 1, 30, 0⟩).1.1

/-- Buffer lengths of a single ring: 3 floats per vertex for positions and
normals. -/
theorem generateRing_lengths (center : Vec3) (q : Quat) (r : ℝ) (n : ℕ) :
    (generateRing center q r n).positions.length = n * 3
    ∧ (generateRing center q r n).normals.length = n * 3 := by
  constructor <;>
    simp [generateRing, List.length_flatten, List.map_map, Function.comp_def,
      List.map_const', List.sum_replicate, smul_eq_mul, mul_comm]

/-- `connectRings` emits 6 indices per radial segment. -/
theorem connectRings_length (o1 o2 n : ℕ) :
    (connectRings o1 o2 n).length = n * 6 := by
  simp [connectRings, List.length_flatten, List.map_map, Function.comp_def,
    List.map_const', List.sum_replicate, smul_eq_mul, mul_comm]

/-- Buffer lengths contributed by one skeleton segment. -/
theorem segmentGeometry_lengths (nodes : List SkeletonNode)
    (segInfos : List SegmentInfo) (config : BranchGeometryConfig)
    (segment : SkeletonSegment) (segmentIndex vertexOffset : ℕ) :
    (segmentGeometry nodes segInfos config segment segmentIndex vertexOffset).positions.length
        = config.radialSegments * 6
    ∧ (segmentGeometry nodes segInfos config segment segmentIndex vertexOffset).normals.length
        = config.radialSegments * 6
    ∧ (segmentGeometry nodes segInfos config segment segmentIndex vertexOffset).uvs.length
        = config.radialSegments * 4
    ∧ (segmentGeometry nodes segInfos config segment segmentIndex vertexOffset).indices.length
        = config.radialSegments * 6 := by
  refine ⟨?_, ?_, ?_, ?_⟩ <;>
    · simp [segmentGeometry, List.length_append, (generateRing_lengths ..).1,
        (generateRing_lengths ..).2, connectRings_length, List.length_flatten,
        List.map_map, Function.comp_def, List.map_const', List.sum_replicate,
        smul_eq_mul]
      try ring

/-- Buffer lengths of the branch-geometry loop. -/
theorem buildBranchGeometryGo_lengths (nodes : List SkeletonNode)
    (segInfos : List SegmentInfo) (config : BranchGeometryConfig) :
    ∀ (segs : List SkeletonSegment) (segmentIndex vertexOffset : ℕ),
      (buildBranchGeometryGo nodes segInfos config segs segmentIndex vertexOffset).positions.length
          = segs.length * (config.radialSegments * 6)
      ∧ (buildBranchGeometryGo nodes segInfos config segs segmentIndex vertexOffset).normals.length
          = segs.length * (config.radialSegments * 6)
      ∧ (buildBranchGeometryGo nodes segInfos config segs segmentIndex vertexOffset).uvs.length
          = segs.length * (config.radialSegments * 4)
      ∧ (buildBranchGeometryGo nodes segInfos config segs segmentIndex vertexOffset).indices.length
          = segs.length * (config.radialSegments * 6) := by
  intro segs
  induction segs with
  | nil =>
    intro _ _
    refine ⟨by simp [buildBranchGeometryGo], by simp [buildBranchGeometryGo],
      by simp [buildBranchGeometryGo], by simp [buildBranchGeometryGo]⟩
  | cons segment rest ih =>
    intro segmentIndex vertexOffset
    obtain ⟨p1, p2, p3, p4⟩ := segmentGeometry_lengths nodes segInfos config segment
      segmentIndex vertexOffset
    obtain ⟨q1, q2, q3, q4⟩ := ih (segmentIndex + 1) (vertexOffset + config.radialSegments * 2)
    refine ⟨?_, ?_, ?_, ?_⟩
    · show (_ ++ _ : List ℝ).length = _
      rw [List.length_append, p1, q1, List.length_cons]
      ring
    · show (_ ++ _ : List ℝ).length = _
      rw [List.length_append, p2, q2, List.length_cons]
      ring
    · show (_ ++ _ : List ℝ).length = _
      rw [List.length_append, p3, q3, List.length_cons]
      ring
    · show (_ ++ _ : List ℕ).length = _
      rw [List.length_append, p4, q4, List.length_cons]
      ring

/-- **C6.** For every skeleton and branch config, `buildBranchGeometry`
satisfies the buffer-shape invariant (`normals` as long as `positions`,
`uvs` exactly `positions/3*2`, `indices` a multiple of 3); the same holds
for `createLeafShape` for every leaf-shape config; and a skeleton with no
segments yields zero-length buffers, not null. -/
theorem geometry_buffer_shapes (skeleton : Skeleton) (config : BranchGeometryConfig)
    (lcfg : LeafShapeConfig) (nodes : List SkeletonNode) (leaves : List LeafPoint) :
    ((buildBranchGeometry skeleton config).normals.length
        = (buildBranchGeometry skeleton config).positions.length
      ∧ (buildBranchGeometry skeleton config).uvs.length
        = (buildBranchGeometry skeleton config).positions.length / 3 * 2
      ∧ (buildBranchGeometry skeleton config).indices.length % 3 = 0)
    ∧ ((createLeafShape lcfg).normals.length = (createLeafShape lcfg).positions.length
      ∧ (createLeafShape lcfg).uvs.length = (createLeafShape lcfg).positions.length / 3 * 2
      ∧ (createLeafShape lcfg).indices.length % 3 = 0)
    ∧ buildBranchGeometry ⟨nodes, [], leaves⟩ config = ⟨[], [], [], []⟩ := by
  obtain ⟨b1, b2, b3, b4⟩ := buildBranchGeometryGo_lengths skeleton.nodes
    (skeleton.segments.map (fun seg => SegmentInfo.mk seg.length)) config
    skeleton.segments 0 0
  have hl : ∀ cfg : LeafShapeConfig,
      (createLeafShape cfg).positions.length = (cfg.segments + 1) * 6
      ∧ (createLeafShape cfg).normals.length = (cfg.segments + 1) * 6
      ∧ (createLeafShape cfg).uvs.length = (cfg.segments + 1) * 4
      ∧ (createLeafShape cfg).indices.length = cfg.segments * 6 := by
    intro cfg
    refine ⟨?_, ?_, ?_, ?_⟩ <;>
      simp [createLeafShape, leafRowPositions, leafRowNormals, leafRowUVs,
        leafSegIndices, List.length_flatten, List.map_map, Function.comp_def,
        List.map_const', List.sum_replicate, smul_eq_mul, mul_comm]
  refine ⟨⟨?_, ?_, ?_⟩, ⟨?_, ?_, ?_⟩, rfl⟩
  · show (buildBranchGeometryGo _ _ _ _ 0 0).normals.length
      = (buildBranchGeometryGo _ _ _ _ 0 0).positions.length
    rw [b1, b2]
  · show (buildBranchGeometryGo _ _ _ _ 0 0).uvs.length
      = (buildBranchGeometryGo _ _ _ _ 0 0).positions.length / 3 * 2
    rw [b1, b3]
    have e1 : skeleton.segments.length * (config.radialSegments * 6)
        = skeleton.segments.length * config.radialSegments * 6 := by ring
    have e2 : skeleton.segments.length * (config.radialSegments * 4)
        = skeleton.segments.length * config.radialSegments * 4 := by ring
    rw [e1, e2]
    omega
  · show (buildBranchGeometryGo _ _ _ _ 0 0).indices.length % 3 = 0
    rw [b4]
    have e1 : skeleton.segments.length * (config.radialSegments * 6)
        = skeleton.segments.length * config.radialSegments * 6 := by ring
    rw [e1]
    omega
  · rw [(hl lcfg).1, (hl lcfg).2.1]
  · rw [(hl lcfg).2.2.1, (hl lcfg).1]
    omega
  · rw [(hl lcfg).2.2.2]
    omega

/-- Rotation by a unit quaternion preserves the squared norm. -/
theorem rotate_normSq (v : Vec3) (q : Quat)
    (hq : q.x * q.x + q.y * q.y + q.z * q.z + q.w * q.w = 1) :
    (rotateVec3ByQuat v q).x * (rotateVec3ByQuat v q).x
      + (rotateVec3ByQuat v q).y * (rotateVec3ByQuat v q).y
      + (rotateVec3ByQuat v q).z * (rotateVec3ByQuat v q).z
    = v.x * v.x + v.y * v.y + v.z * v.z := by
  obtain ⟨vx, vy, vz⟩ := v
  obtain ⟨qx, qy, qz, qw⟩ := q
  simp only [rotateVec3ByQuat, crossVec3, scaleVec3, addVec3] at *
  linear_combination
    (4 * ((qx ^ 2 + qy ^ 2 + qz ^ 2) * (vx ^ 2 + vy ^ 2 + vz ^ 2)
      - (qx * vx + qy * vy + qz * vz) ^ 2)) * hq

/-- The local ring vertex has squared norm `r²`. -/
theorem ringLocalPos_normSq (r : ℝ) (n i : ℕ) :
    (ringLocalPos r n i).x * (ringLocalPos r n i).x
      + (ringLocalPos r n i).y * (ringLocalPos r n i).y
      + (ringLocalPos r n i).z * (ringLocalPos r n i).z = r * r := by
  simp only [ringLocalPos]
  have h := Real.sin_sq_add_cos_sq (((i : ℝ) * 2 * Real.pi) / (n : ℝ))
  linear_combination (r * r) * h

/-- **C4 (amended).** For every call of `generateRing` with a *unit*
orientation quaternion and *positive* radius, the result contains exactly
`n` vertices (3 floats each), every vertex lies at Euclidean distance `r`
from the center, and every per-vertex normal is unit length. -/
theorem generateRing_spec (center : Vec3) (q : Quat) (r : ℝ) (n : ℕ)
    (hq : q.x * q.x + q.y * q.y + q.z * q.z + q.w * q.w = 1) (hr : 0 < r) :
    (generateRing center q r n).positions.length = n * 3
    ∧ (generateRing center q r n).normals.length = n * 3
    ∧ ∀ i : ℕ, distanceVec3 (ringVertexPos center q r n i) center = r
        ∧ lengthVec3 (ringVertexNormal q r n i) = 1 := by
  refine ⟨(generateRing_lengths ..).1, (generateRing_lengths ..).2, ?_⟩
  intro i
  have hnorm : (rotateVec3ByQuat (ringLocalPos r n i) q).x
        * (rotateVec3ByQuat (ringLocalPos r n i) q).x
      + (rotateVec3ByQuat (ringLocalPos r n i) q).y
        * (rotateVec3ByQuat (ringLocalPos r n i) q).y
      + (rotateVec3ByQuat (ringLocalPos r n i) q).z
        * (rotateVec3ByQuat (ringLocalPos r n i) q).z = r * r := by
    rw [rotate_normSq _ _ hq, ringLocalPos_normSq]
  have hlen : lengthVec3 (rotateVec3ByQuat (ringLocalPos r n i) q) = r := by
    rw [lengthVec3, hnorm, show r * r = r ^ 2 by ring]
    exact Real.sqrt_sq hr.le
  constructor
  · simp only [distanceVec3, ringVertexPos, subVec3, addVec3, lengthVec3]
    have e : (center.x - (center.x + (rotateVec3ByQuat (ringLocalPos r n i) q).x))
          * (center.x - (center.x + (rotateVec3ByQuat (ringLocalPos r n i) q).x))
        + (center.y - (center.y + (rotateVec3ByQuat (ringLocalPos r n i) q).y))
          * (center.y - (center.y + (rotateVec3ByQuat (ringLocalPos r n i) q).y))
        + (center.z - (center.z + (rotateVec3ByQuat (ringLocalPos r n i) q).z))
          * (center.z - (center.z + (rotateVec3ByQuat (ringLocalPos r n i) q).z))
        = r * r := by
      rw [← hnorm]; ring
    rw [e, show r * r = r ^ 2 by ring]
    exact Real.sqrt_sq hr.le
  · simp only [ringVertexNormal, normalizeVec3, hlen]
    rw [if_neg hr.ne']
    simp only [lengthVec3]
    have e : (rotateVec3ByQuat (ringLocalPos r n i) q).x / r
          * ((rotateVec3ByQuat (ringLocalPos r n i) q).x / r)
        + (rotateVec3ByQuat (ringLocalPos r n i) q).y / r
          * ((rotateVec3ByQuat (ringLocalPos r n i) q).y / r)
        + (rotateVec3ByQuat (ringLocalPos r n i) q).z / r
          * ((rotateVec3ByQuat (ringLocalPos r n i) q).z / r) = 1 := by
      field_simp
      rw [← hnorm]
      try ring
    rw [e]
    exact Real.sqrt_one

theorem generateRing_spec_witness :
    (generateRing ⟨0, 5, 0⟩ identityQuat 2.5 6).positions.length = 6 * 3
    ∧ (generateRing ⟨0, 5, 0⟩ identityQuat 2.5 6).normals.length = 6 * 3
    ∧ ∀ i : ℕ, distanceVec3 (ringVertexPos ⟨0, 5, 0⟩ identityQuat 2.5 6 i) ⟨0, 5, 0⟩ = 2.5
        ∧ lengthVec3 (ringVertexNormal identityQuat 2.5 6 i) = 1 :=
  generateRing_spec ⟨0, 5, 0⟩ identityQuat 2.5 6 (by norm_num [identityQuat]) (by norm_num)

/-- **C4 (counterexample).** The claim as stated fails at radius 0: the
call `generateRing(origin, identity, 0, 1)` produces the zero vector as
its per-vertex normal (the zero-length guard of `normalizeVec3`), which is
not unit length. -/
theorem generateRing_zero_radius_normal :
    (generateRing ⟨0, 0, 0⟩ identityQuat 0 1).normals = [0, 0, 0]
    ∧ lengthVec3 ⟨0, 0, 0⟩ ≠ 1 := by
  have hlocal : ringLocalPos 0 1 0 = ⟨0, 0, 0⟩ := by
    simp [ringLocalPos]
  have hrot : rotateVec3ByQuat (⟨0, 0, 0⟩ : Vec3) identityQuat = ⟨0, 0, 0⟩ := by
    simp [rotateVec3ByQuat, crossVec3, scaleVec3, addVec3, identityQuat]
  constructor
  · show (((List.range 1).map (fun i =>
        let nv := ringVertexNormal identityQuat 0 1 i
        [nv.x, nv.y, nv.z])).flatten : List ℝ) = [0, 0, 0]
    have : ringVertexNormal identityQuat 0 1 0 = ⟨0, 0, 0⟩ := by
      rw [ringVertexNormal, hlocal, hrot]
      simp [normalizeVec3, lengthVec3]
    simp [List.range_succ, this]
  · simp [lengthVec3]

/-- The interpreter invariant holds initially. -/
theorem initial_inv (config : TurtleConfig) : InterpInv (initialIState config) := by
  refine ⟨fun _ => rfl, ?_, ⟨rootNode config, by simp [initialIState], rfl⟩, ?_⟩
  · intro n hn
    have : n = rootNode config := by simpa [initialIState] using hn
    rw [this]
    exact ⟨rfl, rfl⟩
  · intro t ht
    simp [initialIState] at ht

/-- Every symbol handler preserves the interpreter invariant. -/
theorem interpStep_inv (config : TurtleConfig) (s : IState) (sym : Symb ℝ)
    (h : InterpInv s) : InterpInv (interpStep config s sym) := by
  obtain ⟨h1, h2, h3, h4⟩ := h
  unfold interpStep
  by_cases hF : sym.symbol = 'F'
  · rw [if_pos hF]
    obtain ⟨nd, hndmem, hndid⟩ := h3
    have hfind : ∃ a, s.nodes.find? (fun n => n.id == s.st.currentNodeId) = some a := by
      rw [← Option.isSome_iff_exists, List.find?_isSome]
      exact ⟨nd, hndmem, by simp [hndid]⟩
    obtain ⟨found, hfound⟩ := hfind
    have hfid : found.id = s.st.currentNodeId := by
      have := List.find?_some hfound
      simpa using this
    refine ⟨?_, ?_, ?_, ?_⟩
    · intro id
      dsimp only
      rw [hfound, Option.getD_some, List.countP_append]
      by_cases hid : id = s.st.currentNodeId
      · subst hid
        rw [Function.update_same, h1 s.st.currentNodeId]
        simp [createSegment, hfid]
      · rw [Function.update_noteq hid, h1 id]
        have hne : (found.id == id) = false := by
          rw [hfid]
          exact beq_false_of_ne fun e => hid e.symm
        simp [createSegment, hne]
    · intro n hn
      dsimp only at hn
      rcases List.mem_append.mp hn with hL | hR
      · exact h2 _ hL
      · rw [List.mem_singleton] at hR
        rw [hR]
        exact ⟨rfl, rfl⟩
    · exact ⟨_, List.mem_append_right _ (List.mem_singleton.mpr rfl), rfl⟩
    · intro t ht
      dsimp only at ht
      obtain ⟨n2, hn2, hid2⟩ := h4 t ht
      exact ⟨n2, List.mem_append_left _ hn2, hid2⟩
  · rw [if_neg hF]
    by_cases hc : sym.symbol = '+'
    · rw [if_pos hc]; exact ⟨h1, h2, h3, h4⟩
    · rw [if_neg hc]
      by_cases hc2 : sym.symbol = '-'
      · rw [if_pos hc2]; exact ⟨h1, h2, h3, h4⟩
      · rw [if_neg hc2]
        by_cases hc3 : sym.symbol = '^'
        · rw [if_pos hc3]; exact ⟨h1, h2, h3, h4⟩
        · rw [if_neg hc3]
          by_cases hc4 : sym.symbol = '&'
          · rw [if_pos hc4]; exact ⟨h1, h2, h3, h4⟩
          · rw [if_neg hc4]
            by_cases hc5 : sym.symbol = '/'
            · rw [if_pos hc5]; exact ⟨h1, h2, h3, h4⟩
            · rw [if_neg hc5]
              by_cases hc6 : sym.symbol = '\\'
              · rw [if_pos hc6]; exact ⟨h1, h2, h3, h4⟩
              · rw [if_neg hc6]
                by_cases hc7 : sym.symbol = '['
                · rw [if_pos hc7]
                  refine ⟨h1, h2, h3, ?_⟩
                  intro t ht
                  dsimp only at ht
                  rcases List.mem_cons.mp ht with rfl | ht'
                  · exact h3
                  · exact h4 t ht'
                · rw [if_neg hc7]
                  by_cases hc8 : sym.symbol = ']'
                  · rw [if_pos hc8]
                    rcases hstk : s.stateStack with _ | ⟨saved, rest⟩
                    · exact ⟨h1, h2, h3, h4⟩
                    · refine ⟨h1, h2, ?_, ?_⟩
                      · exact h4 saved (by rw [hstk]; exact List.mem_cons_self _ _)
                      · intro t ht
                        exact h4 t (by rw [hstk]; exact List.mem_cons_of_mem _ ht)
                  · rw [if_neg hc8]
                    by_cases hc9 : sym.symbol = 'L'
                    · rw [if_pos hc9]; exact ⟨h1, h2, h3, h4⟩
                    · rw [if_neg hc9]; exact ⟨h1, h2, h3, h4⟩

/-- The interpreter invariant is preserved by the whole fold. -/
theorem foldl_interp_inv (config : TurtleConfig) (sentence : List (Symb ℝ)) :
    ∀ s : IState, InterpInv s → InterpInv (sentence.foldl (interpStep config) s) := by
  induction sentence with
  | nil => intro s h; exact h
  | cons sym rest ih =>
    intro s h
    exact ih _ (interpStep_inv config s sym h)

/-- **C5.** In the skeleton returned by `interpretSentence`, a node is a
branch point iff more than one segment starts at it, and terminal iff no
segment starts at it. -/
theorem branchPoint_terminal_iff (sentence : List (Symb ℝ)) (config : TurtleConfig)
    (n : SkeletonNode) (hn : n ∈ (interpretSentence sentence config).nodes) :
    (n.isBranchPoint = true
      ↔ 1 < (interpretSentence sentence config).segments.countP
          (fun seg => seg.startNodeId == n.id))
    ∧ (n.isTerminal = true
      ↔ (interpretSentence sentence config).segments.countP
          (fun seg => seg.startNodeId == n.id) = 0) := by
  obtain ⟨h1, h2, _h3, _h4⟩ :=
    foldl_interp_inv config sentence (initialIState config) (initial_inv config)
  have hn' : n ∈ annotateNodes
      (sentence.foldl (interpStep config) (initialIState config)).childCounts
      (sentence.foldl (interpStep config) (initialIState config)).segments
      (sentence.foldl (interpStep config) (initialIState config)).nodes := hn
  obtain ⟨m, hm, hgm⟩ := List.mem_map.mp hn'
  obtain ⟨hbp, hterm⟩ := h2 m hm
  have hsegs : (interpretSentence sentence config).segments
      = (sentence.foldl (interpStep config) (initialIState config)).segments := rfl
  rw [hsegs, ← hgm]
  dsimp only
  rw [hbp, hterm, Bool.false_or, Bool.false_or]
  constructor
  · rw [h1 m.id]
    exact decide_eq_true_iff
  · have e : ((sentence.foldl (interpStep config) (initialIState config)).segments.map
        SkeletonSegment.startNodeId).contains m.id = false
        ↔ (sentence.foldl (interpStep config) (initialIState config)).segments.countP
            (fun seg => seg.startNodeId == m.id) = 0 := by
      rw [List.countP_eq_zero]
      simp only [List.contains_eq_any_beq]
      simp
      constructor
      · intro hc seg hseg hid
        exact hc seg hseg hid.symm
      · intro hc seg hseg hid
        exact hc seg hseg hid.symm
    constructor
    · intro hb
      rw [← e]
      cases hcontains : ((sentence.foldl (interpStep config) (initialIState config)).segments.map
          SkeletonSegment.startNodeId).contains m.id
      · rfl
      · rw [hcontains] at hb
        simp at hb
    · intro hz
      rw [← e] at hz
      rw [hz]
      rfl

theorem branchPoint_terminal_iff_witness :
    (sampleRootNode.isBranchPoint = true
      ↔ 1 < (interpretSentence [] sampleTurtleConfig).segments.countP
          (fun seg => seg.startNodeId == sampleRootNode.id))
    ∧ (sampleRootNode.isTerminal = true
      ↔ (interpretSentence [] sampleTurtleConfig).segments.countP
          (fun seg => seg.startNodeId == sampleRootNode.id) = 0) :=
  branchPoint_terminal_iff [] sampleTurtleConfig sampleRootNode
    (by
      rw [show interpretSentence [] sampleTurtleConfig
          = ⟨[sampleRootNode], [], []⟩ from rfl]
      exact List.mem_singleton.mpr rfl)

/-- One leaf-instance block is 16 matrix floats and 3 color floats. -/
theorem leafInstance_lengths (cfg : LeafInstanceConfig) (f : ℕ → ℝ) (k : ℕ)
    (leaf : LeafPoint) :
    (leafInstance cfg f k leaf).1.length = 16
    ∧ (leafInstance cfg f k leaf).2.length = 3 :=
  ⟨rfl, rfl⟩

/-- Instance `i` of the leaf loop is the block drawn at cursor `k + 7i`. -/
theorem buildLeafInstancesGo_block (cfg : LeafInstanceConfig) (f : ℕ → ℝ) :
    ∀ (leaves : List LeafPoint) (k i : ℕ) (h : i < leaves.length),
      ((buildLeafInstancesGo cfg f leaves k).1.drop (16 * i)).take 16
          = (leafInstance cfg f (k + 7 * i) (leaves.get ⟨i, h⟩)).1
      ∧ ((buildLeafInstancesGo cfg f leaves k).2.drop (3 * i)).take 3
          = (leafInstance cfg f (k + 7 * i) (leaves.get ⟨i, h⟩)).2 := by
  intro leaves
  induction leaves with
  | nil => intro k i h; exact absurd h (Nat.not_lt_zero i)
  | cons leaf rest ih =>
    intro k i h
    have e1 : (buildLeafInstancesGo cfg f (leaf :: rest) k).1
        = (leafInstance cfg f k leaf).1 ++ (buildLeafInstancesGo cfg f rest (k + 7)).1 := rfl
    have e2 : (buildLeafInstancesGo cfg f (leaf :: rest) k).2
        = (leafInstance cfg f k leaf).2 ++ (buildLeafInstancesGo cfg f rest (k + 7)).2 := rfl
    match i with
    | 0 =>
      rw [e1, e2]
      constructor
      · rw [show (16 * 0 : ℕ) = 0 from rfl, List.drop_zero]
        exact List.take_left' (leafInstance_lengths cfg f k leaf).1
      · rw [show (3 * 0 : ℕ) = 0 from rfl, List.drop_zero]
        exact List.take_left' (leafInstance_lengths cfg f k leaf).2
    | i' + 1 =>
      obtain ⟨g1, g2⟩ := ih (k + 7) i' (Nat.lt_of_succ_lt_succ h)
      have ha : k + 7 + 7 * i' = k + 7 * (i' + 1) := by ring
      rw [ha] at g1 g2
      constructor
      · rw [e1, show (16 * (i' + 1) : ℕ)
            = (leafInstance cfg f k leaf).1.length + 16 * i' by
              rw [(leafInstance_lengths cfg f k leaf).1]; ring,
          List.drop_append]
        exact g1
      · rw [e2, show (3 * (i' + 1) : ℕ)
            = (leafInstance cfg f k leaf).2.length + 3 * i' by
              rw [(leafInstance_lengths cfg f k leaf).2]; ring,
          List.drop_append]
        exact g2

/-- **C1 (amended).** Per-leaf instance data is drawn from the dedicated
seeded stream created from `leafInstanceConfig.seed`: instance `i`'s 4×4
matrix and RGB color are exactly the block drawn at cursor `7i` of
`createRandom(config.seed)`, independent of the branch/skeleton stream;
and the default config's leaf seed is the constant `"leaves"`. -/
theorem buildLeafInstances_dedicated (leaves : List LeafPoint)
    (cfg : LeafInstanceConfig) (i : ℕ) (h : i < leaves.length) :
    ((buildLeafInstances leaves cfg).matrices.drop (16 * i)).take 16
        = (leafInstance cfg (leafRandomStream cfg.seed) (7 * i) (leaves.get ⟨i, h⟩)).1
    ∧ ((buildLeafInstances leaves cfg).colors.drop (3 * i)).take 3
        = (leafInstance cfg (leafRandomStream cfg.seed) (7 * i) (leaves.get ⟨i, h⟩)).2
    ∧ (buildLeafInstances leaves cfg).count = leaves.length
    ∧ defaultTreeConfig.leafInstanceConfig.seed = "leaves" := by
  have hne : ¬ leaves.length = 0 := by omega
  have e : buildLeafInstances leaves cfg
      = ⟨(buildLeafInstancesGo cfg (leafRandomStream cfg.seed) leaves 0).1,
         (buildLeafInstancesGo cfg (leafRandomStream cfg.seed) leaves 0).2,
         leaves.length⟩ := by
    rw [buildLeafInstances, if_neg hne]
  obtain ⟨g1, g2⟩ := buildLeafInstancesGo_block cfg (leafRandomStream cfg.seed) leaves 0 i h
  rw [e]
  refine ⟨?_, ?_, rfl, rfl⟩
  · simpa using g1
  · simpa using g2

theorem buildLeafInstances_dedicated_witness :
    ((buildLeafInstances [sampleLeaf] defaultTreeConfig.leafInstanceConfig).matrices.drop
        (16 * 0)).take 16
      = (leafInstance defaultTreeConfig.leafInstanceConfig
          (leafRandomStream defaultTreeConfig.leafInstanceConfig.seed) (7 * 0)
          ([sampleLeaf].get ⟨0, by simp⟩)).1
    ∧ ((buildLeafInstances [sampleLeaf] defaultTreeConfig.leafInstanceConfig).colors.drop
        (3 * 0)).take 3
      = (leafInstance defaultTreeConfig.leafInstanceConfig
          (leafRandomStream defaultTreeConfig.leafInstanceConfig.seed) (7 * 0)
          ([sampleLeaf].get ⟨0, by simp⟩)).2
    ∧ (buildLeafInstances [sampleLeaf] defaultTreeConfig.leafInstanceConfig).count
      = [sampleLeaf].length
    ∧ defaultTreeConfig.leafInstanceConfig.seed = "leaves" :=
  buildLeafInstances_dedicated [sampleLeaf] defaultTreeConfig.leafInstanceConfig 0 (by simp)

/-- **C1 (counterexample).** In `defaultTreeConfig` the leaf-instance seed
is the constant `"leaves"`, which is *not* the base tree seed
(`"default-tree"`) concatenated with any suffix. -/
theorem defaultTreeConfig_leaf_seed_counterexample :
    defaultTreeConfig.leafInstanceConfig.seed = "leaves"
    ∧ defaultTreeConfig.seed = "default-tree"
    ∧ ¬ ∃ suffix : String, defaultTreeConfig.leafInstanceConfig.seed
        = defaultTreeConfig.seed ++ suffix := by
  refine ⟨rfl, rfl, ?_⟩
  rintro ⟨s, hs⟩
  have hs' : ("leaves" : String) = "default-tree" ++ s := hs
  have hlen := congrArg String.length hs'
  rw [String.length_append] at hlen
  have e1 : ("leaves" : String).length = 6 := rfl
  have e2 : ("default-tree" : String).length = 12 := rfl
  rw [e1, e2] at hlen
  omega

end LTree
